import Mathlib

/-!
Verification of the receipt-automation pipeline (`receipt_automator.py`).

The Python source is shallowly embedded over `List Char`:
strings become `List Char`, the three regular expressions of
`parse_receipt_data` become executable scanning functions with Python
`re` leftmost / lazy / greedy semantics, `float` values arising from
two-decimal numerals become exact rationals (`ℚ`), and the side-effecting
watchdog handler `ReceiptHandler.on_created` becomes a pure function
returning the effects it would perform.  The character classes model the
ASCII behaviour of Python's `\d`, `\s`, `str.strip` and `str.lower`,
which is the range exercised by the receipt formats the program handles.
-/

namespace ReceiptAutomator

/-- ASCII model of Python whitespace (`\s`, `str.strip`): space, tab,
newline, carriage return, vertical tab, form feed. -/
def pySpace (c : Char) : Bool :=
  c = ' ' || c = '\t' || c = '\n' || c = '\r' || c = '\x0b' || c = '\x0c'

/-- The regex class `[0-9]` (also ASCII `\d`). -/
def isDig (c : Char) : Bool := '0' ≤ c && c ≤ '9'

/-- The regex class `[A-Z]`. -/
def isUpp (c : Char) : Bool := 'A' ≤ c && c ≤ 'Z'

/-- The regex class `[1-9A-Z]` used at position 13 of the GSTIN pattern. -/
def isAlnum19 (c : Char) : Bool := ('1' ≤ c && c ≤ '9') || isUpp c

/-- The regex class `[0-9A-Z]` used at the last position of the GSTIN
pattern. -/
def isAlnum (c : Char) : Bool := isDig c || isUpp c

/-- Left half of Python `str.strip()`. -/
def lstrip (l : List Char) : List Char := l.dropWhile pySpace

/-- Right half of Python `str.strip()`. -/
def rstrip (l : List Char) : List Char := (l.reverse.dropWhile pySpace).reverse

/-- Python `str.strip()` (ASCII whitespace model). -/
def strip (l : List Char) : List Char := rstrip (lstrip l)

/-- Python `text.split('\n')`: `"".split('\n') = [""]`, and a trailing
newline yields a trailing empty piece. -/
def splitNl : List Char → List (List Char)
  | [] => [[]]
  | c :: cs =>
    if c = '\n' then [] :: splitNl cs
    else
      match splitNl cs with
      | [] => [[c]]
      | l :: ls => (c :: l) :: ls

/-- The normalizer `cleaned_lines = [line.strip() for line in text.split('\n') if line.strip()]`
(line 67 of the source). -/
def cleanedLines (text : List Char) : List (List Char) :=
  ((splitNl text).map strip).filter (fun l => !l.isEmpty)

/-- Python substring containment `needle in hay`. -/
def containsSub (needle : List Char) : List Char → Bool
  | [] => needle.isPrefixOf ([] : List Char)
  | c :: cs => needle.isPrefixOf (c :: cs) || containsSub needle cs

/-- The marker strings of `parse_receipt_data`. -/
def gstinMark : List Char := "GSTIN".data

def invoiceAmountMark : List Char := "Invoice Amount".data

def totalMark : List Char := "Total".data

def amountMark : List Char := "Amount".data

def quantMark : List Char := "Quant".data

def taxableMark : List Char := "Taxable".data

def invoiceMark : List Char := "Invoice".data

def unknownName : List Char := "Unknown".data

def naMark : List Char := "N/A".data

/-- The character classes of the source regex
`[0-9]{2}[A-Z]{5}[0-9]{4}[A-Z]{1}[1-9A-Z]{1}Z[0-9A-Z]{1}` (line 79),
in positional order. -/
def gstinClasses : List (Char → Bool) :=
  [isDig, isDig, isUpp, isUpp, isUpp, isUpp, isUpp,
   isDig, isDig, isDig, isDig, isUpp, isAlnum19, (· = 'Z'), isAlnum]

/-- Predicate `matchesClasses ps l` holds when `l` starts with `ps.length`
characters satisfying the classes `ps` in order. -/
def matchesClasses : List (Char → Bool) → List Char → Bool
  | [], _ => true
  | _ :: _, [] => false
  | p :: ps, c :: cs => p c && matchesClasses ps cs

/-- Model of `re.search(gstin_pattern, line)` (line 86): the pattern is a fixed
15-character sequence of classes, so the leftmost match is the first
position whose next 15 characters satisfy the classes. -/
def reSearchGstin : List Char → Option (List Char)
  | [] => none
  | c :: cs =>
    if matchesClasses gstinClasses (c :: cs) then some ((c :: cs).take 15)
    else reSearchGstin cs

/-- One attempt of `amount_pattern = (\d+\.\d{2})` anchored at the head
of `l`: a maximal nonempty digit run (greediness of `\d+` is forced
because the next character must be `'.'`), then `'.'`, then two digits.
Returns the matched text and the remaining suffix. -/
def amountAt (l : List Char) : Option (List Char × List Char) :=
  let ds := l.takeWhile isDig
  if ds.isEmpty then none
  else
    match l.dropWhile isDig with
    | '.' :: f1 :: f2 :: rest =>
      if isDig f1 && isDig f2 then some (ds ++ '.' :: f1 :: f2 :: [], rest)
      else none
    | _ => none

/-- Fuel-indexed scan for `re.findall(amount_pattern, line)`: structural
recursion on the fuel.  When `amountAt` succeeds, the returned suffix is
strictly shorter than the input (the match consumes at least four
characters), so fuel equal to the input length never runs out: by the
time it reaches zero the list is already empty. -/
def findallAmountAux : Nat → List Char → List (List Char)
  | 0, _ => []
  | _ + 1, [] => []
  | fuel + 1, c :: cs =>
    match amountAt (c :: cs) with
    | some (m, rest) => m :: findallAmountAux fuel rest
    | none => findallAmountAux fuel cs

/-- Model of `re.findall(amount_pattern, line)` (line 92): scan left to right;
after a match continue from the character past its end. -/
def findallAmount (l : List Char) : List (List Char) :=
  findallAmountAux l.length l

/-- Value of Python `int` on a digit string. -/
def natOfDigits (l : List Char) : Nat :=
  l.foldl (fun n c => 10 * n + (c.toNat - '0'.toNat)) 0

/-- Exact value of Python `float` on a matched amount numeral
`digits '.' d d` (two fractional digits are always exact here up to the
binary rounding of `float`, which this model replaces by the exact
rational). -/
def ratOfAmount (l : List Char) : ℚ :=
  ((natOfDigits (l.takeWhile isDig) : ℚ) * 100
    + (natOfDigits ((l.dropWhile isDig).drop 1) : ℚ)) / 100

/-- One line of the metadata loop (lines 83–94): the running state is
the pair `(gstin, invoice_amount)`.  A line containing `"GSTIN"`
overwrites `gstin` with its leftmost pattern match, if any; a line
containing `"Invoice Amount"` or `"Total"` overwrites `invoice_amount`
with the value of the last `(\d+\.\d{2})` match on the line, if any. -/
def metaStep (st : Option (List Char) × ℚ) (line : List Char) :
    Option (List Char) × ℚ :=
  let g :=
    if containsSub gstinMark line then
      match reSearchGstin line with
      | some m => some m
      | none => st.1
    else st.1
  let a :=
    if containsSub invoiceAmountMark line || containsSub totalMark line then
      match findallAmount line with
      | [] => st.2
      | m :: ms => ratOfAmount ((m :: ms).getLast (List.cons_ne_nil m ms))
    else st.2
  (g, a)

/-- The whole metadata loop, starting from `gstin = None`,
`invoice_amount = 0.0` (lines 73–74). -/
def extractMeta (lines : List (List Char)) : Option (List Char) × ℚ :=
  lines.foldl metaStep (none, 0)

/-- The suffix part `\s+(\d+)\s+(\d+\.\d{2})$` of
`item_pattern = (.+?)\s+(\d+)\s+(\d+\.\d{2})$` (line 99), applied after
the lazy group: nonempty whitespace, nonempty digits (the quantity),
nonempty whitespace, then digits `'.'` digit digit ending the string.
Each greedy run is forced maximal because the class that follows is
disjoint.  Returns the quantity digits and the amount numeral. -/
def itemRest (l : List Char) : Option (List Char × List Char) :=
  let w1 := l.takeWhile pySpace
  let r1 := l.dropWhile pySpace
  if w1.isEmpty then none
  else
    let d := r1.takeWhile isDig
    let r2 := r1.dropWhile isDig
    if d.isEmpty then none
    else
      let w2 := r2.takeWhile pySpace
      let r3 := r2.dropWhile pySpace
      if w2.isEmpty then none
      else
        let a := r3.takeWhile isDig
        let r4 := r3.dropWhile isDig
        if a.isEmpty then none
        else
          match r4 with
          | ['.', f1, f2] =>
            if isDig f1 && isDig f2 then some (d, a ++ '.' :: f1 :: f2 :: [])
            else none
          | _ => none

/-- The lazy group `(.+?)` at a fixed start position: try the shortest
nonempty prefix first and extend one character at a time; `.` cannot
cross a newline, which ends the attempts at this start position.
`g1rev` is the group text collected so far, reversed. -/
def itemTryG1 (g1rev : List Char) : List Char → Option (List Char × List Char × List Char)
  | [] => none
  | c :: cs =>
    if c = '\n' then none
    else
      match itemRest cs with
      | some (d, a) => some ((c :: g1rev).reverse, d, a)
      | none => itemTryG1 (c :: g1rev) cs

/-- Model of `re.search(item_pattern, line)` (line 114): try start positions left
to right; at each, the lazy group from shortest to longest.  Returns the
three captured groups `(name text, quantity digits, amount numeral)`. -/
def itemSearch : List Char → Option (List Char × List Char × List Char)
  | [] => none
  | c :: cs =>
    match itemTryG1 [] (c :: cs) with
    | some r => some r
    | none => itemSearch cs

/-- A parsed line item (lines 120–124): `int` on the quantity digits,
`float` on the amount numeral (modelled exactly in `ℚ`), `strip` on the
name group. -/
structure LineItem where
  item_name : List Char
  quantity : Nat
  amount : ℚ
deriving DecidableEq, Repr

/-- Item extraction attempted on one line (lines 113–124). -/
def lineToItem (l : List Char) : Option LineItem :=
  match itemSearch l with
  | some (g1, d, a) => some ⟨strip g1, natOfDigits d, ratOfAmount a⟩
  | none => none

/-- The test `"Amount" in line and "Quant" in line` (line 105). -/
def isHeaderLine (l : List Char) : Bool :=
  containsSub amountMark l && containsSub quantMark l

/-- The test `"Taxable" in line or "Total" in line or "Invoice" in line`
(line 110). -/
def isStopLine (l : List Char) : Bool :=
  containsSub taxableMark l || containsSub totalMark l || containsSub invoiceMark l

/-- The two-state item scanner (lines 101–124): `active` is
`start_parsing`.  A header line sets it and `continue`s; otherwise a
stop line clears it before the extraction attempt; extraction runs only
when the (possibly just cleared) flag is set. -/
def itemsAux (active : Bool) : List (List Char) → List LineItem
  | [] => []
  | l :: ls =>
    if isHeaderLine l then itemsAux true ls
    else
      let active2 := if isStopLine l then false else active
      if active2 then
        match lineToItem l with
        | some it => it :: itemsAux active2 ls
        | none => itemsAux active2 ls
      else itemsAux active2 ls

/-- The item list collected by `parse_receipt_data`, starting from
`start_parsing = False` (line 101). -/
def extractItems (lines : List (List Char)) : List LineItem :=
  itemsAux false lines

/-- The record assembled by `parse_receipt_data` (lines 69–76).
`processed_at` is `datetime.now()` formatted; it is passed in as the
opaque parameter `now`. -/
structure ReceiptRecord where
  filename : List Char
  processed_at : List Char
  store_name : List Char
  gstin : Option (List Char)
  invoice_amount : ℚ
  items : List LineItem
deriving DecidableEq, Repr

/-- Model of `parse_receipt_data(text, filename)` (lines 61–126). -/
def parse_receipt_data (text filename now : List Char) : ReceiptRecord :=
  let cl := cleanedLines text
  { filename := filename
    processed_at := now
    store_name := cl.headD unknownName
    gstin := (extractMeta cl).1
    invoice_amount := (extractMeta cl).2
    items := extractItems cl }

/-- One row of the flat-file sink (lines 140–161). -/
structure CsvRow where
  rFilename : List Char
  rDate : List Char
  rStore : List Char
  rGstin : Option (List Char)
  rTotal : ℚ
  rItem : List Char
  rQty : Nat
  rPrice : ℚ
deriving DecidableEq, Repr

/-- The rows `save_to_csv` builds and appends (lines 137–163): one
placeholder row when the record has no items, otherwise one row per
item, in item order. -/
def csvRows (d : ReceiptRecord) : List CsvRow :=
  if d.items.isEmpty then
    [{ rFilename := d.filename, rDate := d.processed_at, rStore := d.store_name,
       rGstin := d.gstin, rTotal := d.invoice_amount,
       rItem := naMark, rQty := 0, rPrice := 0 }]
  else
    d.items.map fun it =>
      { rFilename := d.filename, rDate := d.processed_at, rStore := d.store_name,
        rGstin := d.gstin, rTotal := d.invoice_amount,
        rItem := it.item_name, rQty := it.quantity, rPrice := it.amount }

/-- ASCII model of Python `str.lower()`. -/
def lowerChar (c : Char) : Char :=
  if 'A' ≤ c && c ≤ 'Z' then Char.ofNat (c.toNat + 32) else c

def pngExt : List Char := ".png".data

def jpgExt : List Char := ".jpg".data

def jpegExt : List Char := ".jpeg".data

def tiffExt : List Char := ".tiff".data

/-- The extension test `event.src_path.lower().endswith(('.png', '.jpg', '.jpeg', '.tiff'))`
(line 228). -/
def hasImageExt (p : List Char) : Bool :=
  let lp := p.map lowerChar
  pngExt.isSuffixOf lp || jpgExt.isSuffixOf lp
    || jpegExt.isSuffixOf lp || tiffExt.isSuffixOf lp

/-- The externally visible effects of one `ReceiptHandler.on_created`
call: the record assembled (if any), the rows appended to the flat-file
sink, whether the relational sink was invoked, and whether the archival
move was attempted. -/
structure PipelineResult where
  record : Option ReceiptRecord
  csv_rows : List CsvRow
  db_written : Bool
  archived : Bool
deriving DecidableEq, Repr

/-- Model of `ReceiptHandler.on_created` (lines 222–254) as a pure function of
its inputs: the directory flag and path of the event, the OCR outcome
(`none` models `extract_text_from_image` returning `None`; Python's
truthiness test `if raw_text:` also rejects empty text), the base
filename, the assembly timestamp, and the `USE_DB` toggle. -/
def on_created (is_directory : Bool) (src_path : List Char)
    (ocr : Option (List Char)) (filename now : List Char)
    (use_db : Bool) : PipelineResult :=
  if is_directory then ⟨none, [], false, false⟩
  else if !hasImageExt src_path then ⟨none, [], false, false⟩
  else
    match ocr with
    | none => ⟨none, [], false, false⟩
    | some t =>
      if t.isEmpty then ⟨none, [], false, false⟩
      else
        let d := parse_receipt_data t filename now
        ⟨some d, csvRows d, use_db, true⟩

/-- The code's tax-id pattern as a predicate on whole strings: exactly
15 characters satisfying `gstinClasses`. -/
def gstinFullMatch (l : List Char) : Bool :=
  matchesClasses gstinClasses l && (l.length == 15)

/-- Modelled from the spec (§3 and claim C2): 2 digits, 5 uppercase
letters, 4 digits, 1 uppercase letter, 1 alphanumeric (uppercase letter
or digit), the literal 'Z', 1 alphanumeric (uppercase letter or digit).
Differs from the source regex at position 13, where the source uses
`[1-9A-Z]`. -/
def specTaxIdPattern : List Char → Bool
  | [c1, c2, c3, c4, c5, c6, c7, c8, c9, c10, c11, c12, c13, c14, c15] =>
    isDig c1 && isDig c2 && isUpp c3 && isUpp c4 && isUpp c5 && isUpp c6
      && isUpp c7 && isDig c8 && isDig c9 && isDig c10 && isDig c11
      && isUpp c12 && (isDig c13 || isUpp c13) && (c14 == 'Z')
      && (isDig c15 || isUpp c15)
  | _ => false

/-- The amended description of the source pattern: as `specTaxIdPattern`
but position 13 is a digit other than `'0'` or an uppercase letter. -/
def amendedTaxIdPattern : List Char → Bool
  | [c1, c2, c3, c4, c5, c6, c7, c8, c9, c10, c11, c12, c13, c14, c15] =>
    isDig c1 && isDig c2 && isUpp c3 && isUpp c4 && isUpp c5 && isUpp c6
      && isUpp c7 && isDig c8 && isDig c9 && isDig c10 && isDig c11
      && isUpp c12 && ((isDig c13 && !(c13 == '0')) || isUpp c13) && (c14 == 'Z')
      && (isDig c15 || isUpp c15)
  | _ => false

/-- Concrete inputs used in witnesses and counterexamples. -/
def exTaxId : List Char := "29ABCDE1234F1Z5".data

def exTaxIdLine : List Char := "GSTIN: 29ABCDE1234F1Z5 extra text".data

def exBadTaxId : List Char := "29ABCDE1234F0Z5".data

def exBadTaxIdLine : List Char := "GSTIN 29ABCDE1234F0Z5".data

def gstinA : List Char := "11AAAAA1111A1Z1".data

def gstinLineA : List Char := "GSTIN 11AAAAA1111A1Z1".data

def gstinB : List Char := "22BBBBB2222B2Z2".data

def gstinLineB : List Char := "GSTIN 22BBBBB2222B2Z2".data

def gstinTwoLineText : List Char :=
  "GSTIN 11AAAAA1111A1Z1\nGSTIN 22BBBBB2222B2Z2".data

def milkLine : List Char := "Milk 2 45.00".data

def milkName : List Char := "Milk".data

def breadLine : List Char := "Bread 1 30.00".data

def breadName : List Char := "Bread".data

def headerLineEx : List Char := "Item Quant Amount".data

def totalLineEx : List Char := "Total 75.00".data

def itemText : List Char :=
  "Item Quant Amount\nMilk 2 45.00\nBread 1 30.00\nTotal 75.00".data

def stopHeaderLine : List Char := "Total Amount Quant".data

def totalLine1 : List Char := "Total 10.00".data

def totalLine2 : List Char := "Total 20.00 30.00".data

def totalTwoLineText : List Char := "Total 10.00\nTotal 20.00 30.00".data

def amt45 : List Char := "45.00".data

def amt30 : List Char := "30.00".data

def amt20 : List Char := "20.00".data

def gstinTotalLine : List Char := "GSTIN Total".data

def sampleFile : List Char := "a.png".data

def sampleTime : List Char := "2026-10-12 00:00:00".data

def sampleStore : List Char := "Shop".data

def sampleItem : LineItem := { item_name := milkName, quantity := 2, amount := 45 }

def recNoItems : ReceiptRecord :=
  { filename := sampleFile, processed_at := sampleTime, store_name := sampleStore,
    gstin := none, invoice_amount := 0, items := [] }

def recOneItem : ReceiptRecord :=
  { filename := sampleFile, processed_at := sampleTime, store_name := sampleStore,
    gstin := some gstinA, invoice_amount := 45, items := [sampleItem] }

def wsText : List Char := "  a b \n\n  \n c\n".data

def wsLineAB : List Char := "a b".data

/-! ### Helper lemmas -/

theorem ratOfAmount_amt45 : ratOfAmount amt45 = 45 := by
  have h1 : amt45.takeWhile isDig = '4' :: '5' :: [] := by decide
  have h2 : (amt45.dropWhile isDig).drop 1 = '0' :: '0' :: [] := by decide
  have h3 : natOfDigits ('4' :: '5' :: []) = 45 := by decide
  have h4 : natOfDigits ('0' :: '0' :: []) = 0 := by decide
  rw [ratOfAmount, h1, h2, h3, h4]
  norm_num

theorem ratOfAmount_amt30 : ratOfAmount amt30 = 30 := by
  have h1 : amt30.takeWhile isDig = '3' :: '0' :: [] := by decide
  have h2 : (amt30.dropWhile isDig).drop 1 = '0' :: '0' :: [] := by decide
  have h3 : natOfDigits ('3' :: '0' :: []) = 30 := by decide
  have h4 : natOfDigits ('0' :: '0' :: []) = 0 := by decide
  rw [ratOfAmount, h1, h2, h3, h4]
  norm_num

theorem lineToItem_milk : lineToItem milkLine = some ⟨milkName, 2, 45⟩ := by
  have h1 : itemSearch milkLine = some (milkName, '2' :: [], amt45) := by decide
  have h2 : strip milkName = milkName := by decide
  have h3 : natOfDigits ('2' :: []) = 2 := by decide
  rw [lineToItem, h1]
  simp [h2, h3, ratOfAmount_amt45]

theorem lineToItem_bread : lineToItem breadLine = some ⟨breadName, 1, 30⟩ := by
  have h1 : itemSearch breadLine = some (breadName, '1' :: [], amt30) := by decide
  have h2 : strip breadName = breadName := by decide
  have h3 : natOfDigits ('1' :: []) = 1 := by decide
  rw [lineToItem, h1]
  simp [h2, h3, ratOfAmount_amt30]

theorem metaStep_fst_of_match {l m : List Char} (st : Option (List Char) × ℚ)
    (h1 : containsSub gstinMark l = true) (h2 : reSearchGstin l = some m) :
    (metaStep st l).1 = some m := by
  simp [metaStep, h1, h2]

theorem metaStep_fst_skip {l : List Char} (st : Option (List Char) × ℚ)
    (h : containsSub gstinMark l = false ∨ reSearchGstin l = none) :
    (metaStep st l).1 = st.1 := by
  rcases h with h | h
  · simp [metaStep, h]
  · by_cases hc : containsSub gstinMark l <;> simp [metaStep, hc, h]

theorem metaStep_snd_of_match {l m : List Char} {ms : List (List Char)}
    (st : Option (List Char) × ℚ)
    (h1 : (containsSub invoiceAmountMark l || containsSub totalMark l) = true)
    (h2 : findallAmount l = m :: ms) :
    (metaStep st l).2 = ratOfAmount ((m :: ms).getLast (List.cons_ne_nil m ms)) := by
  simp [metaStep, h1, h2]

theorem metaStep_snd_skip {l : List Char} (st : Option (List Char) × ℚ)
    (h : (containsSub invoiceAmountMark l || containsSub totalMark l) = false
      ∨ findallAmount l = []) :
    (metaStep st l).2 = st.2 := by
  rcases h with h | h
  · simp [metaStep, h]
  · by_cases hc : containsSub invoiceAmountMark l || containsSub totalMark l <;>
      simp [metaStep, hc, h]

theorem foldl_meta_fst_skip (post : List (List Char)) (st : Option (List Char) × ℚ)
    (h : ∀ l' ∈ post, containsSub gstinMark l' = false ∨ reSearchGstin l' = none) :
    (List.foldl metaStep st post).1 = st.1 := by
  induction post generalizing st with
  | nil => rfl
  | cons l ls ih =>
    rw [List.foldl_cons]
    rw [ih (metaStep st l) (fun l' hl' => h l' (List.mem_cons_of_mem l hl'))]
    exact metaStep_fst_skip st (h l (List.mem_cons_self l ls))

theorem foldl_meta_snd_skip (post : List (List Char)) (st : Option (List Char) × ℚ)
    (h : ∀ l' ∈ post, (containsSub invoiceAmountMark l' || containsSub totalMark l') = false
      ∨ findallAmount l' = []) :
    (List.foldl metaStep st post).2 = st.2 := by
  induction post generalizing st with
  | nil => rfl
  | cons l ls ih =>
    rw [List.foldl_cons]
    rw [ih (metaStep st l) (fun l' hl' => h l' (List.mem_cons_of_mem l hl'))]
    exact metaStep_snd_skip st (h l (List.mem_cons_self l ls))

theorem itemsAux_header {l : List Char} (active : Bool) (rest : List (List Char))
    (hA : containsSub amountMark l = true) (hQ : containsSub quantMark l = true) :
    itemsAux active (l :: rest) = itemsAux true rest := by
  have hH : isHeaderLine l = true := by simp [isHeaderLine, hA, hQ]
  simp [itemsAux, hH]

theorem itemsAux_inactive (rest : List (List Char))
    (h : ∀ r ∈ rest, isHeaderLine r = false) :
    itemsAux false rest = [] := by
  induction rest with
  | nil => rfl
  | cons l ls ih =>
    have hH : isHeaderLine l = false := h l (List.mem_cons_self l ls)
    have hrest := ih (fun r hr => h r (List.mem_cons_of_mem l hr))
    by_cases hS : isStopLine l <;> simp [itemsAux, hH, hS, hrest]

theorem amountAt_rest_length {l m rest : List Char}
    (h : amountAt l = some (m, rest)) : rest.length < l.length := by
  unfold amountAt at h
  by_cases hds : (l.takeWhile isDig).isEmpty
  · simp [hds] at h
  · simp only [hds, if_false, Bool.false_eq_true] at h
    rcases hdrop : l.dropWhile isDig with _ | ⟨d, tl⟩ <;> rw [hdrop] at h
    · simp at h
    · rcases htl : tl with _ | ⟨f1, tl2⟩ <;> rw [htl] at h
      · simp at h
      · rcases htl2 : tl2 with _ | ⟨f2, rest2⟩ <;> rw [htl2] at h
        · simp at h
        · rcases hc : d == '.' with _ | _
          · have hne : d ≠ '.' := by
              intro hceq; rw [hceq] at hc; simp at hc
            simp [hne] at h
          · have hceq : d = '.' := eq_of_beq hc
            subst hceq
            by_cases hd12 : isDig f1 && isDig f2
            · simp only [hd12, if_true, Option.some.injEq, Prod.mk.injEq] at h
              obtain ⟨-, hrest⟩ := h
              subst hrest
              have hlen : l.length =
                  (l.takeWhile isDig).length + (l.dropWhile isDig).length := by
                rw [← List.length_append, List.takeWhile_append_dropWhile]
              have hne : (l.takeWhile isDig).length ≠ 0 := by
                intro h0
                exact hds (by simpa [List.isEmpty_iff, List.length_eq_zero] using h0)
              rw [hdrop, htl, htl2] at hlen
              simp only [List.length_cons] at hlen
              omega
            · simp [hd12] at h

theorem findallAmountAux_fuel : ∀ (n : Nat) (l : List Char),
    l.length ≤ n → findallAmountAux n l = findallAmount l := by
  intro n
  induction n using Nat.strong_induction_on with
  | _ n ih =>
    intro l hlen
    match n, l with
    | 0, [] => rfl
    | 0, c :: cs => simp at hlen
    | n + 1, [] =>
      show ([] : List (List Char)) = findallAmountAux 0 []
      rfl
    | n + 1, c :: cs =>
      have hcs : cs.length ≤ n := by
        simp only [List.length_cons] at hlen
        omega
      show findallAmountAux (n + 1) (c :: cs)
          = findallAmountAux (cs.length + 1) (c :: cs)
      rcases hA : amountAt (c :: cs) with _ | ⟨m, rest⟩
      · simp only [findallAmountAux, hA]
        rw [ih n (Nat.lt_succ_self n) cs hcs]
        rw [ih cs.length (Nat.lt_succ_of_le hcs) cs (Nat.le_refl _)]
      · have hrest : rest.length < cs.length + 1 := by
          have := amountAt_rest_length hA
          simpa using this
        simp only [findallAmountAux, hA]
        rw [ih n (Nat.lt_succ_self n) rest (by omega)]
        rw [ih cs.length (Nat.lt_succ_of_le hcs) rest (by omega)]

theorem findallAmount_cons (c : Char) (cs : List Char) :
    findallAmount (c :: cs) =
      match amountAt (c :: cs) with
      | some (m, rest) => m :: findallAmount rest
      | none => findallAmount cs := by
  show findallAmountAux (cs.length + 1) (c :: cs) = _
  rcases hA : amountAt (c :: cs) with _ | ⟨m, rest⟩
  · simp only [findallAmountAux, hA]
    exact findallAmountAux_fuel cs.length cs (Nat.le_refl _)
  · have hrest : rest.length ≤ cs.length := by
      have := amountAt_rest_length hA
      simp only [List.length_cons] at this
      omega
    simp only [findallAmountAux, hA]
    rw [findallAmountAux_fuel cs.length rest hrest]

/-! ### Claim theorems -/

/-- C6: if the Text Source fails (OCR returns no text), the pipeline
short-circuits for that file: no record is assembled, no flat-file rows
are written, the relational sink is not invoked, and the file is not
moved to the archive. -/
theorem ocr_failure_short_circuit (is_directory : Bool)
    (src_path filename now : List Char) (use_db : Bool) :
    on_created is_directory src_path none filename now use_db =
      { record := none, csv_rows := [], db_written := false, archived := false } := by
  unfold on_created
  cases is_directory <;> cases h : hasImageExt src_path <;> simp [h]

/-- C8: for a record with no items the flat-file sink emits exactly one
placeholder row with Item `"N/A"`, Qty `0`, Price `0.0`, carrying the
record's metadata; for a record with `n ≥ 1` items it emits exactly `n`
rows, one per item, in item order. -/
theorem csv_rows_shape (d : ReceiptRecord) :
    (d.items = [] → csvRows d =
      { rFilename := d.filename, rDate := d.processed_at, rStore := d.store_name,
        rGstin := d.gstin, rTotal := d.invoice_amount,
        rItem := naMark, rQty := 0, rPrice := 0 } :: []) ∧
    (d.items ≠ [] → (csvRows d).length = d.items.length ∧
      ∀ (i : Nat) (hi : i < d.items.length),
        (csvRows d)[i]? = some
          { rFilename := d.filename, rDate := d.processed_at, rStore := d.store_name,
            rGstin := d.gstin, rTotal := d.invoice_amount,
            rItem := (d.items.get ⟨i, hi⟩).item_name,
            rQty := (d.items.get ⟨i, hi⟩).quantity,
            rPrice := (d.items.get ⟨i, hi⟩).amount }) := by
  constructor
  · intro h
    simp [csvRows, h]
  · intro h
    have hne : d.items.isEmpty = false := by
      simpa [List.isEmpty_iff] using h
    refine ⟨by simp [csvRows, hne], fun i hi => ?_⟩
    have hget : d.items[i]? = some (d.items.get ⟨i, hi⟩) := by
      rw [List.getElem?_eq_getElem hi]
      rfl
    simp [csvRows, hne, List.getElem?_map, hget]

/-- C8 witness: the placeholder row for a concrete record with no items,
and the per-item rows for a concrete record with one item. -/
theorem csv_rows_shape_witness :
    csvRows recNoItems =
      { rFilename := sampleFile, rDate := sampleTime, rStore := sampleStore,
        rGstin := none, rTotal := 0, rItem := naMark, rQty := 0, rPrice := 0 } :: [] ∧
    (csvRows recOneItem).length = 1 := by
  constructor
  · exact (csv_rows_shape recNoItems).1 rfl
  · exact ((csv_rows_shape recOneItem).2 (by simp [recOneItem])).1

/-- C9: extracted metadata never regresses: a line containing `"GSTIN"`
but no pattern match leaves the stored tax id unchanged, and a line
containing `"Invoice Amount"` or `"Total"` but no amount match leaves
the stored total unchanged, whatever the current state is. -/
theorem metadata_no_regress (st : Option (List Char) × ℚ) (l : List Char) :
    (containsSub gstinMark l = true → reSearchGstin l = none →
      (metaStep st l).1 = st.1) ∧
    ((containsSub invoiceAmountMark l || containsSub totalMark l) = true →
      findallAmount l = [] → (metaStep st l).2 = st.2) := by
  constructor
  · intro _ h2
    exact metaStep_fst_skip st (Or.inr h2)
  · intro _ h2
    exact metaStep_snd_skip st (Or.inr h2)

/-- C9 witness: a state holding an extracted tax id and total survives
the line `"GSTIN Total"`, which contains both markers but matches
neither pattern. -/
theorem metadata_no_regress_witness :
    (metaStep (some gstinA, (45 : ℚ)) gstinTotalLine).1 = some gstinA ∧
    (metaStep (some gstinA, (45 : ℚ)) gstinTotalLine).2 = 45 := by
  constructor
  · exact (metadata_no_regress (some gstinA, (45 : ℚ)) gstinTotalLine).1
      (by decide) (by decide)
  · exact (metadata_no_regress (some gstinA, (45 : ℚ)) gstinTotalLine).2
      (by decide) (by decide)

/-- C10: the header check has priority over the terminator check: a line
containing both `"Amount"` and `"Quant"` activates the scanner and is
skipped entirely — the result does not depend on whether the line also
contains a terminator marker, and the line contributes no item. -/
theorem header_over_terminator (active : Bool) (l : List Char)
    (rest : List (List Char)) (hA : containsSub amountMark l = true)
    (hQ : containsSub quantMark l = true) :
    itemsAux active (l :: rest) = itemsAux true rest :=
  itemsAux_header active rest hA hQ

/-- C10 witness: the line `"Total Amount Quant"` contains the terminator
marker `"Total"`, yet activates the scanner. -/
theorem header_over_terminator_witness :
    containsSub totalMark stopHeaderLine = true ∧
    itemsAux false (stopHeaderLine :: milkLine :: []) =
      itemsAux true (milkLine :: []) := by
  refine ⟨by decide, ?_⟩
  exact header_over_terminator false stopHeaderLine (milkLine :: [])
    (by decide) (by decide)

/-- C5 counterexample: the line `"Total Amount Quant"` contains
`"Total"`, yet the scanner is ACTIVE afterwards — the following line
`"Milk 2 45.00"`, which contains no header marker, is parsed as an item,
contradicting the claim that the scanner stays INACTIVE after every
terminator-marked line until a later header line. -/
theorem stop_line_counterexample :
    containsSub totalMark stopHeaderLine = true ∧
    containsSub amountMark milkLine = false ∧
    containsSub quantMark milkLine = false ∧
    extractItems (stopHeaderLine :: milkLine :: []) = ⟨milkName, 2, 45⟩ :: [] := by
  refine ⟨by decide, by decide, by decide, ?_⟩
  rw [extractItems, itemsAux_header false _ (by decide) (by decide)]
  have hm1 : isHeaderLine milkLine = false := by decide
  have hm2 : isStopLine milkLine = false := by decide
  simp [itemsAux, hm1, hm2, lineToItem_milk]

/-- C5 amended: a line containing `"Taxable"`, `"Total"`, or
`"Invoice"` is never itself parsed as a line item (it contributes no
item whatever the state), and — provided the line does not also contain
both `"Amount"` and `"Quant"` (header priority, C10) — the scanner is
INACTIVE after it and stays INACTIVE, emitting no items, until a line
containing both `"Amount"` and `"Quant"` reactivates it. -/
theorem stop_line_deactivation :
    (∀ (active : Bool) (l : List Char) (rest : List (List Char)),
      isStopLine l = true →
      itemsAux active (l :: rest) = itemsAux (isHeaderLine l) rest) ∧
    (∀ (active : Bool) (l : List Char) (rest : List (List Char)),
      isStopLine l = true → isHeaderLine l = false →
      (∀ r ∈ rest, isHeaderLine r = false) →
      itemsAux active (l :: rest) = []) := by
  constructor
  · intro active l rest hS
    by_cases hH : isHeaderLine l <;> simp [itemsAux, hH, hS]
  · intro active l rest hS hH hrest
    simp [itemsAux, hH, hS]
    exact itemsAux_inactive rest hrest

/-- C5 amended witness: after `"Total 75.00"` (a terminator, not a
header) the scanner emits nothing on the header-free remainder. -/
theorem stop_line_deactivation_witness :
    itemsAux true (totalLineEx :: milkLine :: []) = [] := by
  refine stop_line_deactivation.2 true totalLineEx (milkLine :: [])
    (by decide) (by decide) ?_
  intro r hr
  simp only [List.mem_cons, List.not_mem_nil, or_false] at hr
  subst hr
  decide

/-- C4: with a header line containing `"Amount"` and `"Quant"`, then
`"Milk 2 45.00"`, then `"Bread 1 30.00"`, then a line containing
`"Total"`, the assembled record's items are exactly
`("Milk", 2, 45.00)` and `("Bread", 1, 30.00)` in that order; the
header line and the `"Total"` line produce no items. -/
theorem line_item_example (text fn now h t : List Char)
    (htext : cleanedLines text = h :: milkLine :: breadLine :: t :: [])
    (hA : containsSub amountMark h = true)
    (hQ : containsSub quantMark h = true)
    (hT : containsSub totalMark t = true) :
    (parse_receipt_data text fn now).items =
      ⟨milkName, 2, 45⟩ :: ⟨breadName, 1, 30⟩ :: [] := by
  have hitems : (parse_receipt_data text fn now).items =
      extractItems (cleanedLines text) := rfl
  rw [hitems, htext, extractItems, itemsAux_header false _ hA hQ]
  have hm1 : isHeaderLine milkLine = false := by decide
  have hm2 : isStopLine milkLine = false := by decide
  have hb1 : isHeaderLine breadLine = false := by decide
  have hb2 : isStopLine breadLine = false := by decide
  have hstop : isStopLine t = true := by simp [isStopLine, hT]
  by_cases hH : isHeaderLine t <;>
    simp [itemsAux, hm1, hm2, hb1, hb2, lineToItem_milk, lineToItem_bread, hH, hstop]

/-- C4 witness: the four-line receipt text with header
`"Item Quant Amount"` and terminator `"Total 75.00"`. -/
theorem line_item_example_witness :
    (parse_receipt_data itemText sampleFile sampleTime).items =
      ⟨milkName, 2, 45⟩ :: ⟨breadName, 1, 30⟩ :: [] :=
  line_item_example itemText sampleFile sampleTime headerLineEx totalLineEx
    (by decide) (by decide) (by decide) (by decide)

theorem dropWhile_head_not {q : Char → Bool} (l : List Char) (c : Char)
    (cs : List Char) (h : l.dropWhile q = c :: cs) : q c = false := by
  induction l with
  | nil => simp [List.dropWhile] at h
  | cons a as ih =>
    rw [List.dropWhile_cons] at h
    by_cases hq : q a
    · rw [if_pos hq] at h
      exact ih h
    · rw [if_neg hq] at h
      injection h with h1 _
      subst h1
      simpa using hq

theorem dropWhile_strip (l : List Char) :
    (strip l).dropWhile pySpace = strip l := by
  rcases hr : strip l with _ | ⟨c, cs⟩
  · rfl
  · have hpre : strip l <+: lstrip l := by
      unfold strip
      exact List.rdropWhile_prefix pySpace (lstrip l)
    obtain ⟨t, ht⟩ := hpre
    rw [hr] at ht
    have hdw : lstrip l = c :: (cs ++ t) := by
      rw [← ht]
      simp
    have hc : pySpace c = false := dropWhile_head_not l c (cs ++ t) hdw
    rw [List.dropWhile_cons, if_neg (by simp [hc])]

theorem strip_idem (l : List Char) : strip (strip l) = strip l := by
  have h1 : lstrip (strip l) = strip l := dropWhile_strip l
  show rstrip (lstrip (strip l)) = strip l
  rw [h1]
  show List.rdropWhile pySpace (strip l) = strip l
  have h2 : strip l = List.rdropWhile pySpace (lstrip l) := rfl
  rw [h2]
  exact List.rdropWhile_idempotent pySpace (lstrip l)

/-- C7: the Line Normalizer never outputs an empty or whitespace-only
element, every retained element is trim-stable, and the retained lines
are a sublist (so, in their original order) of the stripped split of
the raw text. -/
theorem normalizer_contract (text : List Char) :
    (∀ l ∈ cleanedLines text, l ≠ [] ∧ strip l = l) ∧
    (cleanedLines text).Sublist ((splitNl text).map strip) := by
  constructor
  · intro l hl
    rw [cleanedLines] at hl
    obtain ⟨hmap, hpred⟩ := List.mem_filter.mp hl
    constructor
    · intro hnil
      rw [hnil] at hpred
      simp at hpred
    · obtain ⟨x, _, hxeq⟩ := List.mem_map.mp hmap
      rw [← hxeq]
      exact strip_idem x
  · exact List.filter_sublist _

/-- C7 witness: the line `"a b"` retained from a raw text with blank
and padded lines is nonempty and trim-stable. -/
theorem normalizer_contract_witness :
    wsLineAB ≠ [] ∧ strip wsLineAB = wsLineAB :=
  (normalizer_contract wsText).1 wsLineAB (by decide)

/-- C1 counterexample: two lines both contain `"GSTIN"` and both hold a
pattern match, yet the assembled record retains the match from the
second (later) line, not the first — first-match-wins is false. -/
theorem gstin_first_match_counterexample :
    cleanedLines gstinTwoLineText = gstinLineA :: gstinLineB :: [] ∧
    containsSub gstinMark gstinLineA = true ∧
    reSearchGstin gstinLineA = some gstinA ∧
    containsSub gstinMark gstinLineB = true ∧
    reSearchGstin gstinLineB = some gstinB ∧
    (parse_receipt_data gstinTwoLineText sampleFile sampleTime).gstin = some gstinB ∧
    gstinB ≠ gstinA := by
  refine ⟨by decide, by decide, by decide, by decide, by decide, by decide, by decide⟩

/-- C1 amended: tax-id extraction is last-match-wins across the scan:
the record retains the leftmost in-line match of the last line that
contains `"GSTIN"` and holds a pattern match; matches on earlier
qualifying lines are overwritten. -/
theorem gstin_last_match_wins (text fn now : List Char)
    (pre post : List (List Char)) (l m : List Char)
    (htext : cleanedLines text = pre ++ l :: post)
    (hq : containsSub gstinMark l = true)
    (hm : reSearchGstin l = some m)
    (hpost : ∀ p ∈ post, containsSub gstinMark p = false ∨ reSearchGstin p = none) :
    (parse_receipt_data text fn now).gstin = some m := by
  have hg : (parse_receipt_data text fn now).gstin =
      (extractMeta (cleanedLines text)).1 := rfl
  rw [hg, htext, extractMeta, List.foldl_append, List.foldl_cons]
  rw [foldl_meta_fst_skip post _ hpost]
  exact metaStep_fst_of_match _ hq hm

/-- C1 amended witness: on the two-GSTIN-line text the retained tax id
is the second line's match. -/
theorem gstin_last_match_wins_witness :
    (parse_receipt_data gstinTwoLineText sampleFile sampleTime).gstin = some gstinB :=
  gstin_last_match_wins gstinTwoLineText sampleFile sampleTime
    (gstinLineA :: []) [] gstinLineB gstinB (by decide) (by decide) (by decide)
    (fun p hp => absurd hp (List.not_mem_nil p))

/-- C3: total-amount extraction takes the last amount match on a
qualifying line, and across the scan the last qualifying line that has
an amount match wins. -/
theorem total_last_match_wins (text fn now : List Char)
    (pre post : List (List Char)) (l m : List Char) (ms : List (List Char))
    (htext : cleanedLines text = pre ++ l :: post)
    (hq : (containsSub invoiceAmountMark l || containsSub totalMark l) = true)
    (hm : findallAmount l = m :: ms)
    (hpost : ∀ p ∈ post,
      (containsSub invoiceAmountMark p || containsSub totalMark p) = false
        ∨ findallAmount p = []) :
    (parse_receipt_data text fn now).invoice_amount =
      ratOfAmount ((m :: ms).getLast (List.cons_ne_nil m ms)) := by
  have hg : (parse_receipt_data text fn now).invoice_amount =
      (extractMeta (cleanedLines text)).2 := rfl
  rw [hg, htext, extractMeta, List.foldl_append, List.foldl_cons]
  rw [foldl_meta_snd_skip post _ hpost]
  exact metaStep_snd_of_match _ hq hm

/-- C3 witness: with `"Total 10.00"` followed by `"Total 20.00 30.00"`,
the retained total is 30.00 — the last match of the later line. -/
theorem total_last_match_wins_witness :
    (parse_receipt_data totalTwoLineText sampleFile sampleTime).invoice_amount = 30 := by
  have h := total_last_match_wins totalTwoLineText sampleFile sampleTime
    (totalLine1 :: []) [] totalLine2 amt20 (amt30 :: [])
    (by decide) (by decide) (by decide)
    (fun p hp => absurd hp (List.not_mem_nil p))
  rw [h]
  have hlast : (amt20 :: amt30 :: []).getLast (List.cons_ne_nil amt20 (amt30 :: []))
      = amt30 := rfl
  rw [hlast, ratOfAmount_amt30]

theorem digit19_iff (c : Char) :
    ('1' ≤ c ∧ c ≤ '9') ↔ (('0' ≤ c ∧ c ≤ '9') ∧ ¬(c = '0')) := by
  have h1 : ('1' ≤ c) ↔ 49 ≤ c.toNat := Iff.rfl
  have h0 : ('0' ≤ c) ↔ 48 ≤ c.toNat := Iff.rfl
  have h9 : (c ≤ '9') ↔ c.toNat ≤ 57 := Iff.rfl
  have hz : (c = '0') ↔ c.toNat = 48 := by
    constructor
    · intro h
      rw [h]
      rfl
    · intro h
      apply Char.ext
      apply UInt32.toNat.inj
      exact h
  rw [h1, h0, h9, hz]
  omega

theorem alnum19_iff (c : Char) :
    isAlnum19 c = true ↔ ((isDig c = true ∧ ¬(c = '0')) ∨ isUpp c = true) := by
  simp only [isAlnum19, isDig, Bool.or_eq_true, Bool.and_eq_true, decide_eq_true_eq]
  rw [digit19_iff]

theorem matchesClasses_le (ps : List (Char → Bool)) (l : List Char)
    (h : matchesClasses ps l = true) : ps.length ≤ l.length := by
  induction ps generalizing l with
  | nil => simp
  | cons p ps ih =>
    cases l with
    | nil => simp [matchesClasses] at h
    | cons c cs =>
      rw [matchesClasses, Bool.and_eq_true] at h
      simpa using ih cs h.2

theorem matchesClasses_take (ps : List (Char → Bool)) (l : List Char) :
    matchesClasses ps (l.take ps.length) = matchesClasses ps l := by
  induction ps generalizing l with
  | nil => rfl
  | cons p ps ih =>
    cases l with
    | nil => rfl
    | cons c cs =>
      simp only [List.length_cons, List.take_succ_cons, matchesClasses, ih]

theorem gstinFull_take15 (r : List Char) :
    matchesClasses gstinClasses r = true ↔ gstinFullMatch (r.take 15) = true := by
  have hmt : matchesClasses gstinClasses (r.take 15) = matchesClasses gstinClasses r :=
    matchesClasses_take gstinClasses r
  unfold gstinFullMatch
  constructor
  · intro h
    have hle : gstinClasses.length ≤ r.length := matchesClasses_le _ _ h
    have hlen : gstinClasses.length = 15 := rfl
    have htake : (r.take 15).length = 15 := by
      rw [List.length_take]
      omega
    rw [Bool.and_eq_true, hmt, htake]
    exact ⟨h, rfl⟩
  · intro h
    rw [Bool.and_eq_true, hmt] at h
    exact h.1

theorem code_iff_amended (l : List Char) :
    gstinFullMatch l = true ↔ amendedTaxIdPattern l = true := by
  rcases l with _ | ⟨c1, _ | ⟨c2, _ | ⟨c3, _ | ⟨c4, _ | ⟨c5, _ | ⟨c6, _ | ⟨c7, _ | ⟨c8,
    _ | ⟨c9, _ | ⟨c10, _ | ⟨c11, _ | ⟨c12, _ | ⟨c13, _ | ⟨c14, _ | ⟨c15, rest⟩⟩⟩⟩⟩⟩⟩⟩⟩⟩⟩⟩⟩⟩⟩
  case nil => simp [gstinFullMatch, gstinClasses, matchesClasses, amendedTaxIdPattern]
  case cons.nil => simp [gstinFullMatch, gstinClasses, matchesClasses, amendedTaxIdPattern]
  case cons.cons.nil =>
    simp [gstinFullMatch, gstinClasses, matchesClasses, amendedTaxIdPattern]
  case cons.cons.cons.nil =>
    simp [gstinFullMatch, gstinClasses, matchesClasses, amendedTaxIdPattern]
  case cons.cons.cons.cons.nil =>
    simp [gstinFullMatch, gstinClasses, matchesClasses, amendedTaxIdPattern]
  case cons.cons.cons.cons.cons.nil =>
    simp [gstinFullMatch, gstinClasses, matchesClasses, amendedTaxIdPattern]
  case cons.cons.cons.cons.cons.cons.nil =>
    simp [gstinFullMatch, gstinClasses, matchesClasses, amendedTaxIdPattern]
  case cons.cons.cons.cons.cons.cons.cons.nil =>
    simp [gstinFullMatch, gstinClasses, matchesClasses, amendedTaxIdPattern]
  case cons.cons.cons.cons.cons.cons.cons.cons.nil =>
    simp [gstinFullMatch, gstinClasses, matchesClasses, amendedTaxIdPattern]
  case cons.cons.cons.cons.cons.cons.cons.cons.cons.nil =>
    simp [gstinFullMatch, gstinClasses, matchesClasses, amendedTaxIdPattern]
  case cons.cons.cons.cons.cons.cons.cons.cons.cons.cons.nil =>
    simp [gstinFullMatch, gstinClasses, matchesClasses, amendedTaxIdPattern]
  case cons.cons.cons.cons.cons.cons.cons.cons.cons.cons.cons.nil =>
    simp [gstinFullMatch, gstinClasses, matchesClasses, amendedTaxIdPattern]
  case cons.cons.cons.cons.cons.cons.cons.cons.cons.cons.cons.cons.nil =>
    simp [gstinFullMatch, gstinClasses, matchesClasses, amendedTaxIdPattern]
  case cons.cons.cons.cons.cons.cons.cons.cons.cons.cons.cons.cons.cons.nil =>
    simp [gstinFullMatch, gstinClasses, matchesClasses, amendedTaxIdPattern]
  case cons.cons.cons.cons.cons.cons.cons.cons.cons.cons.cons.cons.cons.cons.nil =>
    simp [gstinFullMatch, gstinClasses, matchesClasses, amendedTaxIdPattern]
  case cons.cons.cons.cons.cons.cons.cons.cons.cons.cons.cons.cons.cons.cons.cons =>
    rcases rest with _ | ⟨c16, rest2⟩
    · simp only [gstinFullMatch, gstinClasses, matchesClasses, amendedTaxIdPattern,
        List.length_cons, List.length_nil, Bool.and_eq_true, Bool.or_eq_true,
        decide_eq_true_eq, beq_iff_eq, alnum19_iff, isAlnum,
        Bool.not_eq_true', beq_eq_false_iff_ne, ne_eq]
      constructor
      · intro h
        tauto
      · intro h
        tauto
    · simp [gstinFullMatch, gstinClasses, matchesClasses, amendedTaxIdPattern]

theorem matchesClasses_eq_amended_take (r : List Char) :
    matchesClasses gstinClasses r = amendedTaxIdPattern (r.take 15) := by
  rcases h : matchesClasses gstinClasses r with _ | _
  · rcases h2 : amendedTaxIdPattern (r.take 15) with _ | _
    · rfl
    · exfalso
      have := (gstinFull_take15 r).mpr ((code_iff_amended (r.take 15)).mpr h2)
      rw [h] at this
      exact Bool.false_ne_true this
  · exact ((code_iff_amended (r.take 15)).mp ((gstinFull_take15 r).mp h)).symm

theorem reSearchGstin_first (l : List Char) (p : Nat)
    (hp : matchesClasses gstinClasses (l.drop p) = true)
    (hmin : ∀ q < p, matchesClasses gstinClasses (l.drop q) = false) :
    reSearchGstin l = some ((l.drop p).take 15) := by
  induction l generalizing p with
  | nil =>
    rw [List.drop_nil] at hp
    simp [gstinClasses, matchesClasses] at hp
  | cons c cs ih =>
    cases p with
    | zero =>
      rw [List.drop_zero] at hp ⊢
      simp [reSearchGstin, hp]
    | succ q =>
      have h0 : matchesClasses gstinClasses (c :: cs) = false := by
        have := hmin 0 (Nat.succ_pos q)
        simpa using this
      rw [List.drop_succ_cons] at hp ⊢
      rw [reSearchGstin, if_neg (by simp [h0])]
      exact ih q hp (fun q2 hq2 => by
        have := hmin (q2 + 1) (by omega)
        simpa [List.drop_succ_cons] using this)

/-- C2 counterexample: the string `"29ABCDE1234F0Z5"` has the claimed
form (2 digits, 5 uppercase, 4 digits, 1 uppercase, 1 alphanumeric,
'Z', 1 alphanumeric) and occurs in a line containing `"GSTIN"`, yet the
extraction rejects it: position 13 of the source pattern is `[1-9A-Z]`,
which excludes the digit `'0'`. -/
theorem tax_id_class_counterexample :
    specTaxIdPattern exBadTaxId = true ∧
    containsSub gstinMark exBadTaxIdLine = true ∧
    containsSub exBadTaxId exBadTaxIdLine = true ∧
    (parse_receipt_data exBadTaxIdLine sampleFile sampleTime).gstin = none := by
  refine ⟨by decide, by decide, by decide, by decide⟩

/-- C2 amended: a substring is accepted as a tax-id match exactly when
it has the claimed 15-character form with position 13 restricted to a
digit 1–9 or an uppercase letter; on a line containing `"GSTIN"` the
first (leftmost) accepted occurrence is the one extracted; and on the
line `"GSTIN: 29ABCDE1234F1Z5 extra text"` the extracted tax id is
exactly `"29ABCDE1234F1Z5"`. -/
theorem tax_id_pattern_amended :
    (∀ ln : List Char, gstinFullMatch ln = true ↔ amendedTaxIdPattern ln = true) ∧
    (∀ (l : List Char) (p : Nat),
      containsSub gstinMark l = true →
      amendedTaxIdPattern ((l.drop p).take 15) = true →
      (∀ q < p, amendedTaxIdPattern ((l.drop q).take 15) = false) →
      (extractMeta (l :: [])).1 = some ((l.drop p).take 15)) ∧
    (parse_receipt_data exTaxIdLine sampleFile sampleTime).gstin = some exTaxId := by
  refine ⟨code_iff_amended, ?_, by decide⟩
  intro l p hg hp hmin
  have hp2 : matchesClasses gstinClasses (l.drop p) = true := by
    rw [matchesClasses_eq_amended_take]
    exact hp
  have hmin2 : ∀ q < p, matchesClasses gstinClasses (l.drop q) = false := by
    intro q hq
    rw [matchesClasses_eq_amended_take]
    exact hmin q hq
  have hsearch := reSearchGstin_first l p hp2 hmin2
  have hone : (extractMeta (l :: [])).1 = (metaStep (none, 0) l).1 := rfl
  rw [hone]
  exact metaStep_fst_of_match _ hg hsearch

/-- C2 amended witness: the documented example line, where the first
accepted occurrence starts at position 7. -/
theorem tax_id_pattern_amended_witness :
    (extractMeta (exTaxIdLine :: [])).1 = some ((exTaxIdLine.drop 7).take 15) :=
  tax_id_pattern_amended.2.1 exTaxIdLine 7 (by decide) (by decide) (by decide)

end ReceiptAutomator
